import Mathlib

/-!
Verification development for the `jtd-ts` schema compiler and validation
engine (`src/index.ts`, with helpers `src/utils.ts`, `src/iter.ts`,
`src/random.ts`).

The TypeScript code is shallowly embedded:

* JSON-ish runtime values are the inductive `JsVal`.  JavaScript numbers are
  modelled as rationals (`ℚ`), which supports the integer / fractional-part
  and range tests the validators perform.  Two extra constructors model what
  JavaScript property lookup can produce on plain objects beyond their own
  properties: `.protoFn k` stands for the function value
  `Object.prototype[k]` (e.g. `"constructor"` ↦ the `Object` constructor)
  and `.hostObj` stands for `Object.prototype` itself (reached via
  `"__proto__"`).  Property access on a plain object consults own
  properties first and then `Object.prototype`, exactly as in JavaScript.
* Compiled validator nodes (`CompiledEmpty`, `CompiledBoolean`, …,
  `CompiledDiscriminator`, `CompiledNullable`, `CompiledMetadata`,
  `CompiledDefinitions`, `CompiledRef`, `LazyCompiledRef`) are the
  constructors of the inductive `CSchema`.  The extra constructor
  `.broken v` stands for a non-schema value sitting where a compiled node
  is expected (the raw-schema compiler can produce this, see
  `typeValidatorsCall`); invoking a validator method on it throws a
  `TypeError`, modelled by `Except.error .typeError`.
* `pathErrors` / `guard` / `fuzz` become fuel-indexed functions
  (`pathErrorsF`, `guardF`, `fuzzF`); the fuel only matters for cyclic
  `ref` schemas, and exhaustion is reported as the distinguished error
  `.outOfFuel`.  JavaScript exceptions (`TypeError`, the lazy-ref error)
  are the other `Except` errors.
* Randomness used by `fuzz` is an explicit tape of drawn primitive values
  (`RTok`), one token per call to a primitive of `random.ts`.
-/

namespace JtdTs

/-! ## JavaScript runtime values -/

/-- A JavaScript runtime value as the validators see it.  `.protoFn k` is
the function `Object.prototype[k]`; `.hostObj` is `Object.prototype`. -/
inductive JsVal where
  | null
  | undefined
  | bool (b : Bool)
  | num (q : ℚ)
  | str (s : String)
  | arr (elems : List JsVal)
  | obj (fields : List (String × JsVal))
  | protoFn (name : String)
  | hostObj

/-- `formatType` of `index.ts`: `obj === null ? "null" : Array.isArray(obj)
? "array" : typeof obj`. -/
def formatType : JsVal → String
  | .null => "null"
  | .arr _ => "array"
  | .undefined => "undefined"
  | .bool _ => "boolean"
  | .num _ => "number"
  | .str _ => "string"
  | .obj _ => "object"
  | .protoFn _ => "function"
  | .hostObj => "object"

/-- `isRecord` of `utils.ts`: `typeof inp === "object" && inp !== null &&
!Array.isArray(inp)`. -/
def isRecord : JsVal → Bool
  | .obj _ => true
  | .hostObj => true
  | _ => false

/-- Identifier test of `formatKey`'s regex `/^[a-zA-Z_][a-zA-Z0-9_]*$/`. -/
def isIdentKey (key : String) : Bool :=
  match key.toList with
  | [] => false
  | c :: cs =>
      (c.isAlpha || c == '_') && cs.all (fun d => d.isAlpha || d.isDigit || d == '_')

/-- `formatKey` of `index.ts`. -/
def formatKey (key : String) : String :=
  if isIdentKey key then "." ++ key else "[\"" ++ key ++ "\"]"

/-- The own property names of `Object.prototype` whose values are functions. -/
def objectProtoFnKeys : List String :=
  ["constructor", "hasOwnProperty", "isPrototypeOf", "propertyIsEnumerable",
   "toLocaleString", "toString", "valueOf",
   "__defineGetter__", "__defineSetter__", "__lookupGetter__", "__lookupSetter__"]

/-- What property lookup on a plain object finds on its prototype chain
(`Object.prototype`) when the key is not an own property. -/
def protoGet (k : String) : Option JsVal :=
  if objectProtoFnKeys.contains k then some (.protoFn k)
  else if k == "__proto__" then some .hostObj
  else none

/-- First-match association-list lookup (JavaScript objects cannot hold a
key twice, so plain-object own-property lookup is exactly this). -/
def assocGet {α : Type} (l : List (String × α)) (k : String) : Option α :=
  (l.find? (fun p => p.1 == k)).map (fun p => p.2)

/-- `v[k]` for the record values the validators index into: own properties
first, then `Object.prototype`; absent means `undefined`.  On
`Object.prototype` itself the own properties are its method slots and the
`__proto__` accessor (whose value there is `null`). -/
def jsGet : JsVal → String → JsVal
  | .obj l, k =>
      match assocGet l k with
      | some v => v
      | none => (protoGet k).getD .undefined
  | .hostObj, k =>
      if objectProtoFnKeys.contains k then .protoFn k
      else if k == "__proto__" then .null
      else .undefined
  | _, _ => .undefined

/-- The own enumerable entries of a value, as `Object.entries` (and a rest
spread) sees them.  `Object.prototype`'s own properties are not
enumerable. -/
def jsOwnEntries : JsVal → List (String × JsVal)
  | .obj l => l
  | _ => []

/-- `Object.keys`. -/
def jsOwnKeys (v : JsVal) : List String := (jsOwnEntries v).map (fun p => p.1)

/-- The object rest pattern `const { [k]: _, ...rest } = v`: the own
enumerable entries minus key `k`. -/
def jsRest (v : JsVal) (k : String) : JsVal :=
  .obj ((jsOwnEntries v).filter (fun p => p.1 != k))

/-- One assignment step of `Object.fromEntries` / a spread-then-assign:
a later value for an existing key replaces it in place, a new key is
appended. -/
def insertEntry (l : List (String × JsVal)) (k : String) (v : JsVal) :
    List (String × JsVal) :=
  if l.any (fun p => p.1 == k) then
    l.map (fun p => if p.1 == k then (k, v) else p)
  else l ++ [(k, v)]

/-- `Object.fromEntries`: the last value written to a key wins, the key
keeps its first-insertion position. -/
def jsFromEntries (l : List (String × JsVal)) : List (String × JsVal) :=
  l.foldl (fun acc p => insertEntry acc p.1 p.2) []

/-! ## `utils.ts`: integer bounds and the timestamp grammar -/

/-- `IntType` of `utils.ts`. -/
inductive IntKind where
  | int8 | uint8 | int16 | uint16 | int32 | uint32
  deriving DecidableEq

/-- `intBounds` of `utils.ts`: inclusive lower bound, exclusive upper. -/
def intBounds : IntKind → ℚ × ℚ
  | .int8 => (-128, 128)
  | .int16 => (-32768, 32768)
  | .int32 => (-2147483648, 2147483648)
  | .uint8 => (0, 256)
  | .uint16 => (0, 65536)
  | .uint32 => (0, 4294967296)

/-- The bit width each integer kind declares. -/
def intWidth : IntKind → Nat
  | .int8 => 8
  | .uint8 => 8
  | .int16 => 16
  | .uint16 => 16
  | .int32 => 32
  | .uint32 => 32

/-- Whether an integer kind is signed. -/
def intSigned : IntKind → Bool
  | .int8 => true
  | .int16 => true
  | .int32 => true
  | _ => false

/-- Exactly `w` ASCII digits, read as a decimal number (the `\d{w}` groups
of the timestamp regex followed by `parseInt`). -/
def parseDigits : Nat → Nat → List Char → Option (Nat × List Char)
  | 0, acc, cs => some (acc, cs)
  | w + 1, acc, c :: cs =>
      if c.isDigit then parseDigits w (acc * 10 + (c.toNat - 48)) cs else none
  | _ + 1, _, [] => none

/-- Skip a (possibly empty) run of digits. -/
def skipDigits : List Char → List Char
  | c :: cs => if c.isDigit then skipDigits cs else c :: cs
  | [] => []

/-- The optional fraction `(\.\d+)?` of the timestamp regex. -/
def parseFrac : List Char → Option (List Char)
  | '.' :: c :: cs => if c.isDigit then some (skipDigits cs) else none
  | ['.'] => none
  | cs => some cs

/-- The anchored tail `([zZ]|((\+|-)(\d{2}):(\d{2})))$` of the timestamp
regex. -/
def parseOffset : List Char → Bool
  | ['z'] => true
  | ['Z'] => true
  | c :: cs =>
      (c == '+' || c == '-') &&
        (match parseDigits 2 0 cs with
         | some (_, ':' :: r) =>
             match parseDigits 2 0 r with
             | some (_, []) => true
             | _ => false
         | _ => false)
  | [] => false

/-- `MONTH_LENGTHS` of `utils.ts` (February is handled separately). -/
def monthLengths : List Nat := [31, 0, 31, 30, 31, 30, 31, 31, 30, 31, 30, 31]

/-- `isLeapYear` of `utils.ts`. -/
def isLeapYear (year : Nat) : Bool :=
  year % 4 == 0 && (year % 100 != 0 || year % 400 == 0)

/-- `maxDay` of `utils.ts`. -/
def maxDay (year month : Nat) : Nat :=
  if month == 2 then (if isLeapYear year then 29 else 28)
  else (monthLengths.getD (month - 1) 0)

/-- `isTimestamp` of `utils.ts`: the anchored RFC3339 regex match plus the
calendar checks on the parsed fields. -/
def isTimestamp (inp : String) : Bool :=
  match parseDigits 4 0 inp.toList with
  | some (year, '-' :: r1) =>
      (match parseDigits 2 0 r1 with
       | some (month, '-' :: r2) =>
           match parseDigits 2 0 r2 with
           | some (day, t :: r3) =>
               (t == 't' || t == 'T') &&
                 (match parseDigits 2 0 r3 with
                  | some (hour, ':' :: r4) =>
                      match parseDigits 2 0 r4 with
                      | some (minute, ':' :: r5) =>
                          match parseDigits 2 0 r5 with
                          | some (second, r6) =>
                              (match parseFrac r6 with
                               | some r7 => parseOffset r7
                               | none => false) &&
                                decide (0 < month) && decide (month ≤ 12) &&
                                decide (day ≤ maxDay year month) &&
                                decide (hour < 24) && decide (minute < 60) &&
                                decide (second ≤ 60)
                          | _ => false
                      | _ => false
                  | _ => false)
           | _ => false
       | _ => false)
  | _ => false

/-- `Number.prototype.toFixed()` (no argument) as the int validator uses
it: it is only reached on integral values (after the fractional-part
check, or on the integral bounds), where it prints the integer.  The
non-integral fallback `num/den` stands in for the decimal printing of a
double; no verified statement depends on that text. -/
def numToFixed (q : ℚ) : String :=
  if q.den = 1 then toString q.num else toString q.num ++ "/" ++ toString q.den

/-- `Number.prototype.toPrecision()` (no argument), with the same
non-integral rendering caveat as `numToFixed`. -/
def numToPrecision (q : ℚ) : String :=
  if q.den = 1 then toString q.num else toString q.num ++ "/" ++ toString q.den

/-! ## Compiled schema nodes -/

/-- A compiled validator node of `index.ts`.  Constructors map one-to-one
onto the classes: `CompiledEmpty`, `CompiledBoolean`, `CompiledInt`,
`CompiledFloat` (both kinds), `CompiledString`, `CompiledTimestamp`,
`CompiledEnum` (the value list; the `Set` it also stores holds the same
strings), `CompiledElements`, `CompiledValues`, `CompiledProperties`
(entry lists for `properties` / `optionalProperties`, the
`additionalProperties` flag and the stored `keys` set as a list),
`CompiledDiscriminator` (the entry list; the `mapping` object holds the
same associations), `CompiledNullable`, `CompiledMetadata`,
`CompiledDefinitions`, `CompiledRef` (the builder's eager reference) and
`LazyCompiledRef` (resolved against the shared `validDefs` table at
validation time).  `.broken v` is a non-schema JavaScript value in a
compiled-node position. -/
inductive CSchema where
  | empty
  | boolean
  | int (kind : IntKind)
  | float32
  | float64
  | str
  | timestamp
  | enum (vals : List String)
  | elements (el : CSchema)
  | values (vl : CSchema)
  | props (ps os : Option (List (String × CSchema))) (additional : Bool)
      (keys : List String)
  | discriminator (tag : String) (entries : List (String × CSchema))
  | nullable (inner : CSchema)
  | metadata (inner : CSchema) (payload : JsVal)
  | defs (table : List (String × CSchema)) (root : CSchema)
  | bref (name : String) (inner : CSchema)
  | lazyRef (name : String)
  | broken (v : JsVal)

/-- The `definitions?: true` field: set by `CompiledDefinitions`, copied by
the `CompiledNullable` and `CompiledMetadata` constructors from the node
they wrap, `undefined` (read as `false`) everywhere else. -/
def defsFlag : CSchema → Bool
  | .defs _ _ => true
  | .nullable inner => defsFlag inner
  | .metadata inner _ => defsFlag inner
  | _ => false

/-- The `nullable?: true` field: `CompiledNullable` sets it,
`CompiledMetadata` copies it from the wrapped node. -/
def nullFlag : CSchema → Bool
  | .nullable _ => true
  | .metadata inner _ => nullFlag inner
  | _ => false

/-- The `keys?: Set<string>` field: only `CompiledProperties` has it. -/
def keysOpt : CSchema → Option (List String)
  | .props _ _ _ keys => some keys
  | _ => none

/-! ## `pathErrors` and `guard` -/

/-- A yielded error: reverse-order path segments and a message. -/
abbrev PErr := List String × String

/-- How a modelled validator call can fail to return normally: a JavaScript
`TypeError` (a validator method invoked on a non-schema value), the lazy
reference error of `LazyCompiledRef`, or fuel exhaustion standing for
divergence on a cyclic schema. -/
inductive JsErr where
  | typeError
  | refError (name : String)
  | outOfFuel
  deriving DecidableEq, Repr

/-- The environment of a validation call: the `validDefs` table shared by
every `LazyCompiledRef` of one `compile` run. -/
abbrev Env := List (String × CSchema)

/-- Push one path segment (`path.push(...)`) onto every error of a child. -/
def tagPath (seg : String) (l : List PErr) : List PErr :=
  l.map (fun pe => (pe.1 ++ [seg], pe.2))

/-- Sequence child error enumerations, concatenating their yields; an
exception in one child aborts the whole enumeration. -/
def collectErrs {α : Type} (f : α → Except JsErr (List PErr)) :
    List α → Except JsErr (List PErr)
  | [] => pure []
  | x :: xs => do
      let h ← f x
      let t ← collectErrs f xs
      pure (h ++ t)

/-- `String.prototype.join(", ")`. -/
def joinComma (l : List String) : String := String.intercalate ", " l

/-- One required-property step of `CompiledProperties.pathErrors`,
parameterised by the child error enumerator: a key whose looked-up value
is `undefined` yields the missing-key error; otherwise the child's errors
are re-yielded under the key's path segment. -/
def reqCheck (child : CSchema → JsVal → Except JsErr (List PErr)) (v : JsVal)
    (kc : String × CSchema) : Except JsErr (List PErr) :=
  match jsGet v kc.1 with
  | .undefined => pure [([], "required key '" ++ kc.1 ++ "' is missing")]
  | _ => (child kc.2 (jsGet v kc.1)).map (tagPath (formatKey kc.1))

/-- One optional-property step of `CompiledProperties.pathErrors`: a key
whose looked-up value is `undefined` is skipped. -/
def optCheck (child : CSchema → JsVal → Except JsErr (List PErr)) (v : JsVal)
    (kc : String × CSchema) : Except JsErr (List PErr) :=
  match jsGet v kc.1 with
  | .undefined => pure []
  | _ => (child kc.2 (jsGet v kc.1)).map (tagPath (formatKey kc.1))

/-- The additional-properties sweep of `CompiledProperties.pathErrors`. -/
def extraErrs (additional : Bool) (keys : List String) (v : JsVal) :
    List PErr :=
  if additional then [] else
    (jsOwnKeys v).filterMap (fun k =>
      if keys.contains k then none
      else some ([formatKey k],
        "'" ++ k ++
        "' is not a valid property and additional properties are not allowed"))

/-- `pathErrors` of every compiled node, fuel-indexed.  Fuel is consumed on
every recursive call; `.outOfFuel` stands for the divergence a genuinely
cyclic schema-and-lookup chain would exhibit. -/
def pathErrorsF : Nat → Env → CSchema → JsVal → Except JsErr (List PErr)
  | 0, _, _, _ => throw .outOfFuel
  | n + 1, env, s, v =>
    match s with
    | .empty =>
        pure (match v with
          | .undefined => [([], "value is undefined")]
          | _ => [])
    | .boolean =>
        pure (match v with
          | .bool _ => []
          | _ => [([], formatType v ++ " is not a boolean")])
    | .int kind =>
        pure (match v with
          | .num q =>
              if q.den ≠ 1 then
                [([], numToPrecision q ++ " is not an integer")]
              else if q < (intBounds kind).1 then
                [([], numToFixed q ++ " is less than " ++
                  numToFixed (intBounds kind).1)]
              else if (intBounds kind).2 ≤ q then
                [([], numToFixed q ++ " is greater than " ++
                  numToFixed ((intBounds kind).2 - 1))]
              else []
          | _ => [([], formatType v ++ " is not a number")])
    | .float32 =>
        pure (match v with
          | .num _ => []
          | _ => [([], formatType v ++ " is not number, expected a float")])
    | .float64 =>
        pure (match v with
          | .num _ => []
          | _ => [([], formatType v ++ " is not number, expected a float")])
    | .str =>
        pure (match v with
          | .str _ => []
          | _ => [([], formatType v ++ " is not a string")])
    | .timestamp =>
        pure (match v with
          | .str t => if isTimestamp t then [] else
              [([], t ++ " is not a valid timestamp")]
          | _ => [([], formatType v ++ " is not a string")])
    | .enum vals =>
        pure (match v with
          | .str t => if vals.contains t then [] else
              [([], t ++ " is not one of " ++ joinComma vals)]
          | _ => [([], formatType v ++ " is not a string")])
    | .elements el =>
        match v with
        | .arr xs =>
            collectErrs
              (fun ie => (pathErrorsF n env el ie.2).map
                (tagPath ("[" ++ toString ie.1 ++ "]")))
              xs.enum
        | _ => pure [([], formatType v ++ " is not an array")]
    | .values vl =>
        if isRecord v then
          collectErrs
            (fun kv => (pathErrorsF n env vl kv.2).map (tagPath (formatKey kv.1)))
            (jsOwnEntries v)
        else pure [([], formatType v ++ " is not a record")]
    | .props ps os additional keys =>
        if isRecord v then do
          let reqE ← collectErrs
            (reqCheck (fun c w => pathErrorsF n env c w) v) (ps.getD [])
          let optE ← collectErrs
            (optCheck (fun c w => pathErrorsF n env c w) v) (os.getD [])
          pure (reqE ++ optE ++ extraErrs additional keys v)
        else pure [([], formatType v ++ " is not a record")]
    | .discriminator tag entries =>
        if isRecord v then
          match jsGet v tag with
          | .undefined => pure [([], "discriminator key '" ++ tag ++ "' is missing")]
          | .str kv =>
              match assocGet entries kv with
              | some comp => pathErrorsF n env comp (jsRest v tag)
              | none =>
                  if (protoGet kv).isSome then throw .typeError
                  else pure [([formatKey tag],
                    "'" ++ kv ++ "' is not a valid discriminator value (" ++
                      joinComma (entries.map (fun e => e.1)) ++ ")")]
          | k => pure [([formatKey tag], formatType k ++ " is not a string")]
        else pure [([], formatType v ++ " is not an object")]
    | .nullable inner =>
        match v with
        | .null => pure []
        | _ => (pathErrorsF n env inner v).map
            (List.map (fun pe =>
              (pe.1, pe.2 ++ " or " ++ formatType v ++ " is not null")))
    | .metadata inner _ => pathErrorsF n env inner v
    | .defs _ root => pathErrorsF n env root v
    | .bref _ inner => pathErrorsF n env inner v
    | .lazyRef name =>
        match assocGet env name with
        | some comp => pathErrorsF n env comp v
        | none =>
            if (protoGet name).isSome then throw .typeError
            else throw (.refError name)
    | .broken _ => throw .typeError

/-- `guard`: the `CompiledSchemaMixin` implementation asks `pathErrors` for
a first element; `CompiledDiscriminator` overrides it with its own
short-circuiting test, and `.broken` values have no `guard` method at all
(a `TypeError`).  When `pathErrors` returns normally with no yields, the
mixin `guard` runs the same full enumeration, so their exceptional
behaviour on the `true` outcome coincides. -/
def guardF : Nat → Env → CSchema → JsVal → Except JsErr Bool
  | 0, _, _, _ => throw .outOfFuel
  | n + 1, env, .discriminator tag entries, v =>
      if isRecord v then
        match jsGet v tag with
        | .str kv =>
            match assocGet entries kv with
            | some comp => guardF n env comp (jsRest v tag)
            | none => if (protoGet kv).isSome then throw .typeError else pure false
        | _ => pure false
      else pure false
  | _ + 1, _, .broken _, _ => throw .typeError
  | n + 1, env, s, v => (pathErrorsF (n + 1) env s v).map List.isEmpty

/-! ## Randomness and `fuzz`

`fuzz` draws from `random.ts`.  Each primitive draw is one token of an
explicit tape: `.rb` a `bernoulli` outcome, `.rn` a `poisson` count, `.ri`
a `uniform` integer, `.rs` a `chars` string, `.rq` a `gaussian` value.
"For every outcome of the randomness" is "for every tape whose tokens lie
in the primitive's range"; the range conditions are checked when a token
is consumed, and a tape that cannot arise yields `none`. -/

inductive RTok where
  | rb (b : Bool)
  | rn (n : Nat)
  | ri (i : Int)
  | rs (s : String)
  | rq (q : ℚ)

abbrev Tape := List RTok

/-- `CHARS` of `random.ts`: the alphabet `chars` draws from. -/
def CHARS : String :=
  "ABCDEFGHIJKLMNOPQRSTUVWXYZabcdefghijklmnopqrstuvwxyz0123456789 ;,'\""

/-- One `bernoulli(p)` draw (the probability only weights the coin; the
token carries the outcome). -/
def takeBern : Tape → Option (Bool × Tape)
  | .rb b :: t => some (b, t)
  | _ => none

/-- One `poisson(rate)` draw: any natural number. -/
def takePoisson : Tape → Option (Nat × Tape)
  | .rn k :: t => some (k, t)
  | _ => none

/-- One `uniform(start, end)` draw: an integer in `[start, end)`. -/
def takeUniform (lo hi : ℚ) : Tape → Option (Int × Tape)
  | .ri i :: t => if lo ≤ (i : ℚ) ∧ (i : ℚ) < hi then some (i, t) else none
  | _ => none

/-- One `chars(len)` result: a string of `len` characters of `CHARS`. -/
def takeChars (len : Nat) : Tape → Option (String × Tape)
  | .rs s :: t =>
      if s.length = len ∧ s.toList.all (fun c => CHARS.toList.contains c) then
        some (s, t)
      else none
  | _ => none

/-- One `gaussian()` draw. -/
def takeGaussian : Tape → Option (ℚ × Tape)
  | .rq q :: t => some (q, t)
  | _ => none

/-- One `choice(vals)` draw: `vals[uniform(0, vals.length)]`, so an index
below `len`. -/
def takeChoice (len : Nat) : Tape → Option (Nat × Tape)
  | .ri i :: t => if 0 ≤ i ∧ i < (len : Int) then some (i.toNat, t) else none
  | _ => none

/-- One `CompiledTimestamp.fuzz` draw: `new Date(Math.random() *
3153600000000).toISOString()` always renders a valid RFC3339 instant; the
token carries the rendered string. -/
def takeTimestamp : Tape → Option (String × Tape)
  | .rs s :: t => if isTimestamp s then some (s, t) else none
  | _ => none

/-- Run a tape-consuming generator over each list element in order. -/
def fuzzSeq {α β : Type} (f : α → Tape → Option (β × Tape)) :
    List α → Tape → Option (List β × Tape)
  | [], t => some ([], t)
  | x :: xs, t => do
      let (y, t1) ← f x t
      let (ys, t2) ← fuzzSeq f xs t1
      pure (y :: ys, t2)

/-- Run a tape-consuming generator a counted number of times. -/
def fuzzRep {β : Type} (f : Tape → Option (β × Tape)) :
    Nat → Tape → Option (List β × Tape)
  | 0, t => some ([], t)
  | k + 1, t => do
      let (y, t1) ← f t
      let (ys, t2) ← fuzzRep f k t1
      pure (y :: ys, t2)

/-- The extra-property value generator of `CompiledProperties.fuzz`:
`choice([() => null, bernoulli, gaussian, () => chars(poisson()), () => [],
() => ({})])()`. -/
def fuzzJunk (t : Tape) : Option (JsVal × Tape) := do
  let (j, t1) ← takeChoice 6 t
  match j with
  | 0 => pure (JsVal.null, t1)
  | 1 => do let (b, t2) ← takeBern t1; pure (JsVal.bool b, t2)
  | 2 => do let (q, t2) ← takeGaussian t1; pure (JsVal.num q, t2)
  | 3 => do
      let (len, t2) ← takePoisson t1
      let (s, t3) ← takeChars len t2
      pure (JsVal.str s, t3)
  | 4 => pure (JsVal.arr [], t1)
  | _ => pure (JsVal.obj [], t1)

/-- `fuzz` of every compiled node, fuel-indexed like `pathErrorsF`.  The
order of token consumption follows the evaluation order of the source: the
iterator arguments of `CompiledProperties.fuzz` are lazy generators, so
within it the eager `poisson()` for the extra-property count draws first,
then the required entries, the optional coin flips and entries, and the
extra properties; `Object.fromEntries` keeps the last value written per
key.  A `LazyCompiledRef` whose lookup does not find a compiled schema,
and a `.broken` node, end abnormally (`none`). -/
def fuzzF : Nat → Env → CSchema → Tape → Option (JsVal × Tape)
  | 0, _, _, _ => none
  | n + 1, env, s, t0 =>
    match s with
    | .empty => do
        let (j, t1) ← takeChoice 6 t0
        match j with
        | 0 => pure (JsVal.null, t1)
        | 1 => do let (b, t2) ← takeBern t1; pure (JsVal.bool b, t2)
        | 2 => do let (q, t2) ← takeGaussian t1; pure (JsVal.num q, t2)
        | 3 => do
            let (len, t2) ← takePoisson t1
            let (s, t3) ← takeChars len t2
            pure (JsVal.str s, t3)
        | 4 => do
            let (k, t2) ← takePoisson t1
            let (xs, t3) ← fuzzRep (fuzzF n env .empty) k t2
            pure (JsVal.arr xs, t3)
        | _ => do
            let (k, t2) ← takePoisson t1
            let (fields, t3) ← fuzzRep (fun t => do
                let (len, ta) ← takePoisson t
                let (key, tb) ← takeChars len ta
                let (v, tc) ← fuzzF n env .empty tb
                pure ((key, v), tc)) k t2
            pure (JsVal.obj (jsFromEntries fields), t3)
    | .boolean => do
        let (b, t1) ← takeBern t0
        pure (JsVal.bool b, t1)
    | .int kind => do
        let (i, t1) ← takeUniform (intBounds kind).1 (intBounds kind).2 t0
        pure (JsVal.num i, t1)
    | .float32 => do
        let (q, t1) ← takeGaussian t0
        pure (JsVal.num q, t1)
    | .float64 => do
        let (q, t1) ← takeGaussian t0
        pure (JsVal.num q, t1)
    | .str => do
        let (len, t1) ← takePoisson t0
        let (s, t2) ← takeChars len t1
        pure (JsVal.str s, t2)
    | .timestamp => do
        let (s, t1) ← takeTimestamp t0
        pure (JsVal.str s, t1)
    | .enum vals => do
        let (i, t1) ← takeChoice vals.length t0
        pure (JsVal.str (vals.getD i ""), t1)
    | .elements el => do
        let (k, t1) ← takePoisson t0
        let (xs, t2) ← fuzzRep (fuzzF n env el) k t1
        pure (JsVal.arr xs, t2)
    | .values vl => do
        let (k, t1) ← takePoisson t0
        let (fields, t2) ← fuzzRep (fun t => do
            let (len, ta) ← takePoisson t
            let (key, tb) ← takeChars len ta
            let (v, tc) ← fuzzF n env vl tb
            pure ((key, v), tc)) k t1
        pure (JsVal.obj (jsFromEntries fields), t2)
    | .props ps os additional _ => do
        let (cnt, t1) ← if additional then takePoisson t0 else some (0, t0)
        let (reqs, t2) ← fuzzSeq (fun kc t => do
            let (v, ta) ← fuzzF n env kc.2 t
            pure ((kc.1, v), ta)) (ps.getD []) t1
        let (opts, t3) ← fuzzSeq (fun kc t => do
            let (b, ta) ← takeBern t
            if b then do
              let (v, tb) ← fuzzF n env kc.2 ta
              pure ([(kc.1, v)], tb)
            else pure (([] : List (String × JsVal)), ta)) (os.getD []) t2
        let (extras, t4) ← fuzzRep (fun t => do
            let (len, ta) ← takePoisson t
            let (key, tb) ← takeChars len ta
            let (v, tc) ← fuzzJunk tb
            pure ((key, v), tc)) cnt t3
        pure (JsVal.obj (jsFromEntries (reqs ++ opts.flatten ++ extras)), t4)
    | .discriminator tag entries => do
        let (i, t1) ← takeChoice entries.length t0
        let e := entries.getD i ("", .empty)
        let (r, t2) ← fuzzF n env e.2 t1
        pure (JsVal.obj (insertEntry (jsOwnEntries r) tag (.str e.1)), t2)
    | .nullable inner => do
        let (b, t1) ← takeBern t0
        if b then pure (JsVal.null, t1) else fuzzF n env inner t1
    | .metadata inner _ => fuzzF n env inner t0
    | .defs _ root => fuzzF n env root t0
    | .bref _ inner => fuzzF n env inner t0
    | .lazyRef name =>
        match assocGet env name with
        | some comp => fuzzF n env comp t0
        | none => none
    | .broken _ => none

/-! ## The native builder functions -/

/-- A compile-time failure: a thrown `Error` with its message, a thrown
`TypeError`, or fuel exhaustion. -/
inductive CompErr where
  | msg (text : String)
  | typeError
  | outOfFuel
  deriving DecidableEq, Repr

/-- The structural-error message for nested definitions. -/
def defsErrMsg : String := "definitions can only exist on a root schema"

/-- `Set` insertion: keep the first occurrence of each element. -/
def insertUnique (l : List String) (k : String) : List String :=
  if l.contains k then l else l ++ [k]

/-- `new Set(list)` as an insertion-ordered duplicate-free list. -/
def uniqueKeys (ks : List String) : List String :=
  ks.foldl insertUnique []

/-- `nullable` of `index.ts` (the `CompiledNullable` constructor copies the
wrapped node's `definitions` flag and never throws). -/
def nullableB (s : CSchema) : CSchema := .nullable s

/-- `metadata` of `index.ts` (copies `definitions` and `nullable`, never
throws). -/
def metadataB (s : CSchema) (payload : JsVal) : CSchema := .metadata s payload

/-- `enumeration` of `index.ts`. -/
def enumerationB (vals : List String) : Except CompErr CSchema :=
  if (uniqueKeys vals).length ≠ vals.length then
    .error (.msg "enum can't contain duplicates")
  else .ok (.enum vals)

/-- `elements` of `index.ts`. -/
def elementsB (element : CSchema) : Except CompErr CSchema :=
  if defsFlag element then .error (.msg defsErrMsg)
  else .ok (.elements element)

/-- `values` of `index.ts`. -/
def valuesB (value : CSchema) : Except CompErr CSchema :=
  if defsFlag value then .error (.msg defsErrMsg)
  else .ok (.values value)

/-- `propertiesEntries` of `index.ts`: the one true properties
constructor. -/
def propertiesEntriesB (ps os : Option (List (String × CSchema)))
    (additional : Option Bool) : Except CompErr CSchema :=
  let keys := uniqueKeys (((ps.getD []) ++ (os.getD [])).map (fun p => p.1))
  if (ps.getD []).any (fun p => defsFlag p.2) then .error (.msg defsErrMsg)
  else if (os.getD []).any (fun p => defsFlag p.2) then .error (.msg defsErrMsg)
  else if keys.length ≠ (ps.getD []).length + (os.getD []).length then
    .error (.msg "properties and optionalProperties keys must be unique")
  else .ok (.props ps os (additional.getD false) keys)

/-- `discriminatorEntries` of `index.ts`. -/
def discriminatorEntriesB (disc : String) (entries : List (String × CSchema)) :
    Except CompErr CSchema :=
  if entries.any (fun e => defsFlag e.2) then .error (.msg defsErrMsg)
  else if entries.any (fun e =>
      match keysOpt e.2 with
      | some ks => ks.contains disc
      | none => true) then
    .error (.msg
      "all discriminator mappings must be properties schemas that don't contain discriminator")
  else .ok (.discriminator disc entries)

/-! ## The raw-schema compiler -/

/-- The raw `definitions` table of the root document. -/
abbrev RawDefs := List (String × JsVal)

/-- The `in` operator on a schema object: own properties, then the
prototype chain.  The compiler only tests non-prototype key names
(`"type"`, `"enum"`, …), for which this is an own-property test. -/
def schemaHasKey (v : JsVal) (k : String) : Bool :=
  match v with
  | .obj l => l.any (fun p => p.1 == k) || (protoGet k).isSome
  | .hostObj => objectProtoFnKeys.contains k || k == "__proto__"
  | _ => false

mutual

/-- `String(v)`: property-key coercion of a non-string key.  The rendering
of a function and of a non-integral number stand in for the host's text;
no verified statement depends on them. -/
def jsToPropKey : JsVal → String
  | .null => "null"
  | .undefined => "undefined"
  | .bool b => if b then "true" else "false"
  | .num q => numToPrecision q
  | .str s => s
  | .arr xs => String.intercalate "," (jsToPropKeyList xs)
  | .obj _ => "[object Object]"
  | .protoFn name => "function " ++ name ++ "() { [native code] }"
  | .hostObj => "[object Object]"

/-- Array join: `null` and `undefined` elements render empty. -/
def jsToPropKeyList : List JsVal → List String
  | [] => []
  | .null :: xs => "" :: jsToPropKeyList xs
  | .undefined :: xs => "" :: jsToPropKeyList xs
  | x :: xs => jsToPropKey x :: jsToPropKeyList xs

end

/-- The own keys of the `typeValidators` table of `index.ts`. -/
def typeValidatorNames : List String :=
  ["boolean", "float32", "float64", "int8", "uint8", "int16", "uint16",
   "int32", "uint32", "string", "timestamp"]

/-- `typeValidators[type]()`: an own key invokes the matching constructor;
a key inherited from `Object.prototype` finds that member and invokes it
with no arguments on the table (`constructor` is `Object`, so `Object()`
yields a fresh empty object; `toString`/`toLocaleString` yield
`"[object Object]"`; the three predicate methods yield `false`; `valueOf`
yields the table itself; `__lookupGetter__`/`__lookupSetter__` yield
`undefined`; `__defineGetter__`/`__defineSetter__` throw without a
function argument, and `__proto__` is not callable).  Any other key holds
`undefined`, and invoking `undefined` throws a `TypeError`. -/
def typeValidatorsCall (t : String) : Except CompErr CSchema :=
  if t == "boolean" then pure .boolean
  else if t == "float32" then pure .float32
  else if t == "float64" then pure .float64
  else if t == "int8" then pure (.int .int8)
  else if t == "uint8" then pure (.int .uint8)
  else if t == "int16" then pure (.int .int16)
  else if t == "uint16" then pure (.int .uint16)
  else if t == "int32" then pure (.int .int32)
  else if t == "uint32" then pure (.int .uint32)
  else if t == "string" then pure .str
  else if t == "timestamp" then pure .timestamp
  else if t == "constructor" then pure (.broken (.obj []))
  else if t == "toString" || t == "toLocaleString" then
    pure (.broken (.str "[object Object]"))
  else if t == "hasOwnProperty" || t == "isPrototypeOf" ||
      t == "propertyIsEnumerable" then
    pure (.broken (.bool false))
  else if t == "valueOf" then
    pure (.broken (.obj (typeValidatorNames.map (fun k => (k, .protoFn k)))))
  else if t == "__lookupGetter__" || t == "__lookupSetter__" then
    pure (.broken .undefined)
  else throw .typeError

/-- The own keys left in `rest` after a branch's destructuring. -/
def compileRest (v : JsVal) (excluded : List String) : List String :=
  (jsOwnKeys v).filter (fun k => !(excluded.contains k))

/-- `Compiler.compile` of `index.ts`, fuel-indexed on nesting depth.  The
branch classification, the per-branch field validation and destructuring
remainders, the shared cleanup (extra keys, `nullable` type check) and the
`nullable`-then-`metadata` wrapping follow the source line by line. -/
def compileF : Nat → RawDefs → JsVal → Except CompErr CSchema
  | 0, _, _ => throw .outOfFuel
  | n + 1, defs, schema =>
    match schema with
    | .obj _ | .hostObj => do
        let nulla := jsGet schema "nullable"
        let meta := jsGet schema "metadata"
        let branch ←
          (if schemaHasKey schema "type" then do
            let valid ← typeValidatorsCall
              (match jsGet schema "type" with
               | .str s => s
               | x => jsToPropKey x)
            pure (valid, compileRest schema ["type", "metadata", "nullable"])
          else if schemaHasKey schema "enum" then
            match jsGet schema "enum" with
            | .arr xs =>
                if xs.isEmpty || xs.any (fun x =>
                    match x with | .str _ => false | _ => true) then
                  throw (.msg "enum schema enum was not a non-empty array of strings")
                else do
                  let valid ← enumerationB (xs.filterMap (fun x =>
                    match x with | .str s => some s | _ => none))
                  pure (valid, compileRest schema ["enum", "metadata", "nullable"])
            | _ => throw (.msg "enum schema enum was not a non-empty array of strings")
          else if schemaHasKey schema "elements" then do
            let child ← compileF n defs (jsGet schema "elements")
            let valid ← elementsB child
            pure (valid, compileRest schema ["elements", "nullable", "metadata"])
          else if schemaHasKey schema "properties" ||
              schemaHasKey schema "optionalProperties" then do
            let propsV := match jsGet schema "properties" with
              | .undefined => JsVal.obj []
              | x => x
            let opropsV := match jsGet schema "optionalProperties" with
              | .undefined => JsVal.obj []
              | x => x
            if !(isRecord propsV) then throw (.msg "properties must be an object")
            else if !(isRecord opropsV) then
              throw (.msg "optionalProperties must be an object")
            else
              match (match jsGet schema "additionalProperties" with
                     | .undefined => JsVal.bool false
                     | x => x) with
              | .bool additional => do
                  let reqs ← (jsOwnEntries propsV).mapM (fun kv => do
                      let c ← compileF n defs kv.2
                      pure (kv.1, c))
                  let opts ← (jsOwnEntries opropsV).mapM (fun kv => do
                      let c ← compileF n defs kv.2
                      pure (kv.1, c))
                  let valid ←
                    if additional then propertiesEntriesB (some reqs) (some opts) (some true)
                    else propertiesEntriesB (some reqs) (some opts) none
                  pure (valid, compileRest schema
                    ["properties", "optionalProperties", "additionalProperties",
                     "nullable", "metadata"])
              | _ => throw (.msg "additionalProperties must be a boolean")
          else if schemaHasKey schema "values" then do
            let child ← compileF n defs (jsGet schema "values")
            let valid ← valuesB child
            pure (valid, compileRest schema ["values", "metadata", "nullable"])
          else if schemaHasKey schema "ref" then
            let key := match jsGet schema "ref" with
              | .str s => s
              | x => jsToPropKey x
            if (assocGet defs key).isSome || (protoGet key).isSome then
              pure (CSchema.lazyRef key, compileRest schema ["ref", "nullable", "metadata"])
            else throw (.msg ("ref " ++ key ++ " was not in definitions"))
          else if schemaHasKey schema "discriminator" &&
              schemaHasKey schema "mapping" then
            match jsGet schema "discriminator" with
            | .str disc =>
                let mapping := jsGet schema "mapping"
                if isRecord mapping then do
                  let ents ← (jsOwnEntries mapping).mapM (fun kv => do
                      let c ← compileF n defs kv.2
                      pure (kv.1, c))
                  let valid ← discriminatorEntriesB disc ents
                  pure (valid, compileRest schema
                    ["discriminator", "mapping", "nullable", "metadata"])
                else throw (.msg "discriminator mapping was not an object")
            | _ => throw (.msg "discriminator was not a string")
          else
            pure (CSchema.empty, compileRest schema ["nullable", "metadata"]))
        if !branch.2.isEmpty then
          throw (.msg ("schema had extra keys: " ++ joinComma branch.2))
        else do
          let nullaVal ← match nulla with
            | .undefined => pure false
            | .bool b => pure b
            | _ => throw (.msg "nullable was not a boolean")
          let v1 := if nullaVal then nullableB branch.1 else branch.1
          pure (match meta with
            | .undefined => v1
            | m => metadataB v1 m)
    | _ => throw (.msg "jtd schema must be an object")

/-- The `Compiler` constructor: compile every raw definition in order into
the shared `validDefs` table. -/
def compileDefsF (fuel : Nat) (defs : RawDefs) : Except CompErr Env :=
  defs.mapM (fun kv => do
    let c ← compileF fuel defs kv.2
    pure (kv.1, c))

/-- `compile` of `index.ts`: the public entry point.  Returns the
`validDefs` table (the one every `LazyCompiledRef` of this run reads at
validation time) together with the compiled root. -/
def compileTop (fuel : Nat) (schema : JsVal) : Except CompErr (Env × CSchema) :=
  match schema with
  | .obj _ | .hostObj =>
      let definitions := match jsGet schema "definitions" with
        | .undefined => JsVal.obj []
        | x => x
      if isRecord definitions then do
        let rawDefs := jsOwnEntries definitions
        let env ← compileDefsF fuel rawDefs
        let root ← compileF fuel rawDefs (jsRest schema "definitions")
        pure (env, root)
      else throw (.msg "definitions must be an object")
  | _ => throw (.msg "schema must be an object")

/-! ## General lemmas about the embedded semantics -/

theorem map_isEmpty_ok_true_iff (e : Except JsErr (List PErr)) :
    e.map List.isEmpty = .ok true ↔ e = .ok [] := by
  cases e with
  | error err => simp [Except.map]
  | ok l => cases l <;> simp [Except.map]

theorem collectErrs_ok_nil_iff {α : Type} (f : α → Except JsErr (List PErr))
    (l : List α) :
    collectErrs f l = .ok [] ↔ ∀ x ∈ l, f x = .ok [] := by
  induction l with
  | nil => simp [collectErrs, pure, Except.pure]
  | cons x xs ih =>
      simp only [collectErrs, List.mem_cons]
      cases hx : f x with
      | error e =>
          simp only [bind, Except.bind, hx]
          constructor
          · intro hcontra; cases hcontra
          · intro hall
            have h1 := hall x (Or.inl rfl)
            rw [hx] at h1
            cases h1
      | ok h =>
          cases hr : collectErrs f xs with
          | error e =>
              rw [hr] at ih
              simp only [bind, Except.bind]
              constructor
              · intro hcontra; cases hcontra
              · intro hall
                have hbad : (Except.error e : Except JsErr (List PErr)) = .ok [] :=
                  ih.mpr (fun y hy => hall y (Or.inr hy))
                cases hbad
          | ok t =>
              rw [hr] at ih
              simp only [bind, Except.bind, pure, Except.pure, Except.ok.injEq,
                List.append_eq_nil]
              constructor
              · rintro ⟨rfl, rfl⟩ y hy
                rcases hy with rfl | hy
                · exact hx
                · exact ih.mp rfl y hy
              · intro hall
                refine ⟨?_, ?_⟩
                · have h1 := hall x (Or.inl rfl)
                  rw [hx] at h1
                  exact Except.ok.inj h1
                · exact Except.ok.inj (ih.mpr (fun y hy => hall y (Or.inr hy)))

theorem tagPath_map_ok_nil_iff (seg : String) (e : Except JsErr (List PErr)) :
    e.map (tagPath seg) = .ok [] ↔ e = .ok [] := by
  cases e with
  | error err => simp [Except.map]
  | ok l => cases l <;> simp [Except.map, tagPath]

theorem mem_insertUnique (l : List String) (a k : String) :
    k ∈ insertUnique l a ↔ k ∈ l ∨ k = a := by
  unfold insertUnique
  split
  next h =>
      constructor
      · exact Or.inl
      · rintro (hk | rfl)
        · exact hk
        · simpa using h
  next h => simp

theorem mem_uniqueKeys (ks : List String) (k : String) :
    k ∈ uniqueKeys ks ↔ k ∈ ks := by
  suffices h : ∀ acc, k ∈ ks.foldl insertUnique acc ↔ k ∈ acc ∨ k ∈ ks by
    simpa [uniqueKeys] using h []
  induction ks with
  | nil => simp
  | cons a as ih =>
      intro acc
      simp only [List.foldl_cons, ih, mem_insertUnique, List.mem_cons]
      tauto

theorem reqCheck_ok_nil_iff (child : CSchema → JsVal → Except JsErr (List PErr))
    (v : JsVal) (kc : String × CSchema) :
    reqCheck child v kc = .ok [] ↔
      jsGet v kc.1 ≠ .undefined ∧ child kc.2 (jsGet v kc.1) = .ok [] := by
  unfold reqCheck
  cases hv : jsGet v kc.1 <;>
    simp [pure, Except.pure, tagPath_map_ok_nil_iff, hv]

theorem optCheck_ok_nil_iff (child : CSchema → JsVal → Except JsErr (List PErr))
    (v : JsVal) (kc : String × CSchema) :
    optCheck child v kc = .ok [] ↔
      (jsGet v kc.1 ≠ .undefined → child kc.2 (jsGet v kc.1) = .ok []) := by
  unfold optCheck
  cases hv : jsGet v kc.1 <;>
    simp [pure, Except.pure, tagPath_map_ok_nil_iff, hv]

theorem extraErrs_eq_nil_iff (additional : Bool) (keys : List String)
    (v : JsVal) :
    extraErrs additional keys v = [] ↔
      (additional = true ∨ ∀ k ∈ jsOwnKeys v, keys.contains k = true) := by
  unfold extraErrs
  split
  next h => simp [h]
  next h =>
      simp only [Bool.not_eq_true] at h
      subst h
      simp only [List.filterMap_eq_nil_iff, Bool.false_eq_true, false_or]
      constructor
      · intro hall k hk
        have h1 := hall k hk
        by_cases hc : keys.contains k = true
        · exact hc
        · simp only [hc, if_false] at h1
          cases h1
      · intro hall k hk
        have h1 : k ∈ keys := by simpa using hall k hk
        simp [h1]

/-- The `CompiledProperties.pathErrors` enumeration completes empty exactly
when the record passes every required, optional and additional-property
check. -/
theorem props_pathErrors_ok_nil_iff (n : Nat) (env : Env)
    (ps os : Option (List (String × CSchema))) (additional : Bool)
    (keys : List String) (v : JsVal) (hrec : isRecord v = true) :
    pathErrorsF (n + 1) env (.props ps os additional keys) v = .ok [] ↔
      ((∀ kc ∈ ps.getD [], jsGet v kc.1 ≠ .undefined ∧
          pathErrorsF n env kc.2 (jsGet v kc.1) = .ok []) ∧
       (∀ kc ∈ os.getD [], jsGet v kc.1 ≠ .undefined →
          pathErrorsF n env kc.2 (jsGet v kc.1) = .ok []) ∧
       (additional = true ∨ ∀ k ∈ jsOwnKeys v, keys.contains k = true)) := by
  simp only [pathErrorsF, hrec, if_true]
  cases hreq : collectErrs (reqCheck (fun c w => pathErrorsF n env c w) v)
      (ps.getD []) with
  | error e =>
      simp only [hreq, bind, Except.bind]
      constructor
      · intro hcontra; cases hcontra
      · rintro ⟨hr, -, -⟩
        have : collectErrs (reqCheck (fun c w => pathErrorsF n env c w) v)
            (ps.getD []) = .ok [] :=
          (collectErrs_ok_nil_iff _ _).mpr (fun kc hkc =>
            (reqCheck_ok_nil_iff _ _ _).mpr (hr kc hkc))
        rw [hreq] at this
        cases this
  | ok reqE =>
      cases hopt : collectErrs (optCheck (fun c w => pathErrorsF n env c w) v)
          (os.getD []) with
      | error e =>
          simp only [hreq, hopt, bind, Except.bind]
          constructor
          · intro hcontra; cases hcontra
          · rintro ⟨-, ho, -⟩
            have : collectErrs (optCheck (fun c w => pathErrorsF n env c w) v)
                (os.getD []) = .ok [] :=
              (collectErrs_ok_nil_iff _ _).mpr (fun kc hkc =>
                (optCheck_ok_nil_iff _ _ _).mpr (ho kc hkc))
            rw [hopt] at this
            cases this
      | ok optE =>
          simp only [hreq, hopt, bind, Except.bind, pure, Except.pure,
            Except.ok.injEq, List.append_eq_nil]
          constructor
          · rintro ⟨⟨hre, hoe⟩, hee⟩
            subst hre; subst hoe
            refine ⟨?_, ?_, (extraErrs_eq_nil_iff _ _ _).mp hee⟩
            · intro kc hkc
              exact (reqCheck_ok_nil_iff _ _ _).mp
                ((collectErrs_ok_nil_iff _ _).mp hreq kc hkc)
            · intro kc hkc
              exact (optCheck_ok_nil_iff _ _ _).mp
                ((collectErrs_ok_nil_iff _ _).mp hopt kc hkc)
          · rintro ⟨hr, ho, he⟩
            have h1 : collectErrs (reqCheck (fun c w => pathErrorsF n env c w) v)
                (ps.getD []) = .ok [] :=
              (collectErrs_ok_nil_iff _ _).mpr (fun kc hkc =>
                (reqCheck_ok_nil_iff _ _ _).mpr (hr kc hkc))
            have h2 : collectErrs (optCheck (fun c w => pathErrorsF n env c w) v)
                (os.getD []) = .ok [] :=
              (collectErrs_ok_nil_iff _ _).mpr (fun kc hkc =>
                (optCheck_ok_nil_iff _ _ _).mpr (ho kc hkc))
            rw [hreq] at h1
            rw [hopt] at h2
            cases h1; cases h2
            exact ⟨⟨rfl, rfl⟩, (extraErrs_eq_nil_iff _ _ _).mpr he⟩

/-- `guard` returns `true` exactly when `pathErrors` completes with no
yields: the mixin `guard` is that enumeration itself, and the
discriminator's overridden `guard` mirrors its `pathErrors` branch by
branch, delegating to the matched mapping entry. -/
theorem guard_ok_iff (fuel : Nat) : ∀ (env : Env) (s : CSchema) (v : JsVal),
    guardF fuel env s v = .ok true ↔ pathErrorsF fuel env s v = .ok [] := by
  induction fuel with
  | zero => intro env s v; simp [guardF, pathErrorsF]
  | succ n ih =>
      intro env s v
      cases s with
      | discriminator tag entries =>
          simp only [guardF, pathErrorsF]
          by_cases hrec : isRecord v
          · simp only [hrec, if_true]
            cases hk : jsGet v tag with
            | str kv =>
                cases hc : assocGet entries kv with
                | some comp =>
                    simp only [hc]
                    exact ih env comp (jsRest v tag)
                | none =>
                    by_cases hp : (protoGet kv).isSome <;>
                      simp [hc, hp, pure, Except.pure, throw, throwThe,
                        MonadExceptOf.throw]
            | undefined => simp [pure, Except.pure]
            | null => simp [pure, Except.pure]
            | bool b => simp [pure, Except.pure]
            | num q => simp [pure, Except.pure]
            | arr xs => simp [pure, Except.pure]
            | obj fields => simp [pure, Except.pure]
            | protoFn name => simp [pure, Except.pure]
            | hostObj => simp [pure, Except.pure]
          · simp only [hrec, if_false]
            simp [pure, Except.pure]
      | broken b => simp [guardF, pathErrorsF]
      | empty => exact map_isEmpty_ok_true_iff _
      | boolean => exact map_isEmpty_ok_true_iff _
      | int kind => exact map_isEmpty_ok_true_iff _
      | float32 => exact map_isEmpty_ok_true_iff _
      | float64 => exact map_isEmpty_ok_true_iff _
      | str => exact map_isEmpty_ok_true_iff _
      | timestamp => exact map_isEmpty_ok_true_iff _
      | enum vals => exact map_isEmpty_ok_true_iff _
      | elements el => exact map_isEmpty_ok_true_iff _
      | values vl => exact map_isEmpty_ok_true_iff _
      | props ps os additional keys => exact map_isEmpty_ok_true_iff _
      | nullable inner => exact map_isEmpty_ok_true_iff _
      | metadata inner payload => exact map_isEmpty_ok_true_iff _
      | defs table root => exact map_isEmpty_ok_true_iff _
      | bref name inner => exact map_isEmpty_ok_true_iff _
      | lazyRef name => exact map_isEmpty_ok_true_iff _

theorem map_listMap_ok_nil_iff (f : PErr → PErr) (e : Except JsErr (List PErr)) :
    e.map (List.map f) = .ok [] ↔ e = .ok [] := by
  cases e with
  | error err => simp [Except.map]
  | ok l => cases l <;> simp [Except.map]

theorem collectErrs_append_cons {α : Type} (f : α → Except JsErr (List PErr))
    (l1 l2 : List α) (x y : α) (hxy : f x = f y) :
    collectErrs f (l1 ++ x :: l2) = collectErrs f (l1 ++ y :: l2) := by
  induction l1 with
  | nil => simp [collectErrs, hxy]
  | cons a as ih => simp [collectErrs, ih]

theorem collectErrs_skip {α : Type} (f : α → Except JsErr (List PErr))
    (l1 l2 : List α) (x : α) (hx : f x = .ok []) :
    collectErrs f (l1 ++ x :: l2) = collectErrs f (l1 ++ l2) := by
  induction l1 with
  | nil =>
      simp only [List.nil_append, collectErrs, hx, bind, Except.bind]
      cases collectErrs f l2 <;> simp [pure, Except.pure]
  | cons a as ih => simp [collectErrs, ih]

theorem collectErrs_mem {α : Type} (f : α → Except JsErr (List PErr))
    (l1 l2 : List α) (x : α) (r : List PErr)
    (h : collectErrs f (l1 ++ x :: l2) = .ok r)
    (e : PErr) (fx : List PErr) (hfx : f x = .ok fx) (he : e ∈ fx) : e ∈ r := by
  induction l1 generalizing r with
  | nil =>
      simp only [List.nil_append, collectErrs, hfx, bind, Except.bind] at h
      cases hr : collectErrs f l2 with
      | error er => rw [hr] at h; cases h
      | ok t =>
          rw [hr] at h
          simp only [pure, Except.pure, Except.ok.injEq] at h
          subst h
          exact List.mem_append.mpr (Or.inl he)
  | cons a as ih =>
      simp only [List.cons_append, collectErrs, bind, Except.bind,
        List.append_eq] at h
      cases ha : f a with
      | error er => rw [ha] at h; cases h
      | ok t1 =>
          rw [ha] at h
          cases hr : collectErrs f (as ++ x :: l2) with
          | error er => rw [hr] at h; cases h
          | ok t2 =>
              rw [hr] at h
              simp only [pure, Except.pure, Except.ok.injEq] at h
              subst h
              exact List.mem_append.mpr (Or.inr (ih t2 hr))

theorem jsGet_own (fields : List (String × JsVal)) (k : String) (x : JsVal)
    (h : assocGet fields k = some x) : jsGet (.obj fields) k = x := by
  simp [jsGet, h]

/-- `CompiledProperties.pathErrors` on a plain record, written as its three
sweeps. -/
theorem pathErrorsF_props_record (n : Nat) (env : Env)
    (ps os : Option (List (String × CSchema))) (additional : Bool)
    (keys : List String) (fields : List (String × JsVal)) :
    pathErrorsF (n + 1) env (.props ps os additional keys) (.obj fields) =
      (do
        let reqE ← collectErrs
          (reqCheck (fun c w => pathErrorsF n env c w) (.obj fields)) (ps.getD [])
        let optE ← collectErrs
          (optCheck (fun c w => pathErrorsF n env c w) (.obj fields)) (os.getD [])
        pure (reqE ++ optE ++ extraErrs additional keys (.obj fields))) := rfl

/-! ## The claims -/

/-- C1: for every compiled schema node, every definitions table, every fuel
bound and every input value, `guard` returns `true` exactly when
`pathErrors` yields zero entries; in particular the discriminator node's
overridden `guard` agrees, on every input, with the generic guard derived
from its `pathErrors` enumeration (the discriminator constructor is one
case of the quantified `CSchema`). -/
theorem c1_guard_iff_no_errors (fuel : Nat) (env : Env) (s : CSchema)
    (v : JsVal) :
    guardF fuel env s v = .ok true ↔ pathErrorsF fuel env s v = .ok [] :=
  guard_ok_iff fuel env s v

/-- C2 (code bug): on the discriminator schema `discriminator("kind",
{x: properties({n: int8()})})` — accepted by the constructor, first
conjunct — the input `{kind: "constructor"}` makes the overridden `guard`
throw a `TypeError` instead of returning `false`: the mapping lookup finds
the inherited `Object.prototype.constructor`, which is not `undefined`, and
then invokes its absent `guard` method.  `pathErrors` throws at the same
input. -/
theorem c2_guard_throws_on_proto_tag :
    discriminatorEntriesB "kind"
        [("x", .props (some [("n", .int .int8)]) none false ["n"])] =
      .ok (.discriminator "kind"
        [("x", .props (some [("n", .int .int8)]) none false ["n"])]) ∧
    guardF 3 []
        (.discriminator "kind"
          [("x", .props (some [("n", .int .int8)]) none false ["n"])])
        (.obj [("kind", .str "constructor")]) = .error .typeError ∧
    pathErrorsF 3 []
        (.discriminator "kind"
          [("x", .props (some [("n", .int .int8)]) none false ["n"])])
        (.obj [("kind", .str "constructor")]) = .error .typeError :=
  ⟨rfl, rfl, rfl⟩

/-- C3 (code bug): compiling `{properties: {a: {type: "boolean"}},
additionalProperties: true}` and drawing, in the order `fuzz` consumes
randomness, an extra-property count of 1, the required boolean `true`, an
extra key of length 1 with text `"a"`, and junk choice 0 (`null`),
produces `{a: null}`: the random extra key collides with the required key
and `Object.fromEntries` keeps the later junk value.  `guard` rejects that
very output, refuting `S.guard(S.fuzz())` for this outcome of the
randomness. -/
theorem c3_fuzz_output_fails_guard :
    compileTop 4 (.obj
        [("properties", .obj [("a", .obj [("type", .str "boolean")])]),
         ("additionalProperties", .bool true)]) =
      .ok ([], .props (some [("a", .boolean)]) (some []) true ["a"]) ∧
    fuzzF 9 [] (.props (some [("a", .boolean)]) (some []) true ["a"])
        [.rn 1, .rb true, .rn 1, .rs "a", .ri 0] =
      some (.obj [("a", .null)], []) ∧
    guardF 9 [] (.props (some [("a", .boolean)]) (some []) true ["a"])
        (.obj [("a", .null)]) = .ok false :=
  ⟨rfl, rfl, rfl⟩

/-- C4 (code bug): the document `{ref: "constructor"}` names a string that
is not among the (empty) definitions table's keys, yet `compile` succeeds —
`defs["constructor"]` finds the inherited constructor function, so the
`"ref not in definitions"` check passes — and the compiled reference node
then throws a `TypeError` at validation time on every `guard`/`pathErrors`
call (and ends abnormally on `fuzz`), because the `validDefs` lookup
likewise returns the inherited non-schema value. -/
theorem c4_ref_constructor_compiles_then_throws :
    assocGet ([] : RawDefs) "constructor" = none ∧
    compileTop 3 (.obj [("ref", .str "constructor")]) =
      .ok ([], .lazyRef "constructor") ∧
    guardF 2 [] (.lazyRef "constructor") (.bool true) = .error .typeError ∧
    pathErrorsF 2 [] (.lazyRef "constructor") (.bool true) = .error .typeError ∧
    fuzzF 2 [] (.lazyRef "constructor") [] = none :=
  ⟨rfl, rfl, rfl, rfl, rfl⟩

/-- C5 (code bug): `"constructor"` is not one of the eleven type keywords,
yet `compile({type: "constructor"})` does not raise: the `typeValidators`
lookup finds the inherited `Object` constructor, invoking it yields a
fresh empty object, and `compile` returns that non-schema value as the
"compiled node"; only a later method call on it throws. -/
theorem c5_type_constructor_compiles :
    typeValidatorNames.contains "constructor" = false ∧
    compileTop 3 (.obj [("type", .str "constructor")]) =
      .ok ([], .broken (.obj [])) ∧
    guardF 1 [] (.broken (.obj [])) (.bool true) = .error .typeError :=
  ⟨by decide, rfl, rfl⟩

/-- C6: for a schema node `S` built without the nullable wrapper and the
wrapped node `N = nullable(S)`, `N.guard(V)` is true exactly when `V` is
null or `S.guard(V)` is true; and on non-null `V` the wrapper's error
enumeration re-emits exactly `S`'s errors with each message suffixed by
`" or <actual-type> is not null"`. -/
theorem c6_nullable_composition (n : Nat) (env : Env) (S : CSchema)
    (V : JsVal) (hS : nullFlag S = false) :
    (guardF (n + 1) env (.nullable S) V = .ok true ↔
      (V = .null ∨ guardF n env S V = .ok true)) ∧
    (V ≠ .null →
      pathErrorsF (n + 1) env (.nullable S) V =
        (pathErrorsF n env S V).map (List.map (fun pe =>
          (pe.1, pe.2 ++ " or " ++ formatType V ++ " is not null")))) := by
  constructor
  · rw [show guardF (n + 1) env (.nullable S) V =
        (pathErrorsF (n + 1) env (.nullable S) V).map List.isEmpty from rfl]
    rw [map_isEmpty_ok_true_iff]
    cases V with
    | null => simp [pathErrorsF, pure, Except.pure]
    | undefined => simp [pathErrorsF, map_listMap_ok_nil_iff, ← guard_ok_iff]
    | bool b => simp [pathErrorsF, map_listMap_ok_nil_iff, ← guard_ok_iff]
    | num q => simp [pathErrorsF, map_listMap_ok_nil_iff, ← guard_ok_iff]
    | str t => simp [pathErrorsF, map_listMap_ok_nil_iff, ← guard_ok_iff]
    | arr xs => simp [pathErrorsF, map_listMap_ok_nil_iff, ← guard_ok_iff]
    | obj fields => simp [pathErrorsF, map_listMap_ok_nil_iff, ← guard_ok_iff]
    | protoFn name => simp [pathErrorsF, map_listMap_ok_nil_iff, ← guard_ok_iff]
    | hostObj => simp [pathErrorsF, map_listMap_ok_nil_iff, ← guard_ok_iff]
  · intro hV
    cases V with
    | null => exact absurd rfl hV
    | undefined => rfl
    | bool b => rfl
    | num q => rfl
    | str t => rfl
    | arr xs => rfl
    | obj fields => rfl
    | protoFn name => rfl
    | hostObj => rfl

/-- C6 witness: the composition law at `S = boolean()`, `V = 1`. -/
theorem c6_nullable_composition_witness :
    nullFlag .boolean = false ∧
    ((guardF 2 [] (.nullable .boolean) (.num 1) = .ok true ↔
      ((JsVal.num 1) = .null ∨ guardF 1 [] .boolean (.num 1) = .ok true)) ∧
     ((JsVal.num 1) ≠ .null →
      pathErrorsF 2 [] (.nullable .boolean) (.num 1) =
        (pathErrorsF 1 [] .boolean (.num 1)).map (List.map (fun pe =>
          (pe.1, pe.2 ++ " or " ++ formatType (.num 1) ++ " is not null"))))) :=
  ⟨rfl, c6_nullable_composition 1 [] .boolean (.num 1) rfl⟩

/-- C7: the int8 boundary laws — `guard(-128)`, `guard(127)` true,
`guard(-129)`, `guard(128)`, `guard(0.5)` false — and, for every integer
kind, the bounds table is fixed by the declared width and signedness and
`guard` accepts exactly the number inputs with zero fractional part in the
half-open interval `[lower, upper)` (every other runtime value is
rejected). -/
theorem c7_integer_boundaries :
    guardF 1 [] (.int .int8) (.num (-128)) = .ok true ∧
    guardF 1 [] (.int .int8) (.num (-129)) = .ok false ∧
    guardF 1 [] (.int .int8) (.num 127) = .ok true ∧
    guardF 1 [] (.int .int8) (.num 128) = .ok false ∧
    guardF 1 [] (.int .int8) (.num (mkRat 1 2)) = .ok false ∧
    intBounds .uint16 = (0, 65536) ∧
    (∀ kind : IntKind, intBounds kind =
      (if intSigned kind then
        (-(2 ^ (intWidth kind - 1) : ℚ), (2 ^ (intWidth kind - 1) : ℚ))
       else (0, (2 ^ intWidth kind : ℚ)))) ∧
    (∀ (fuel : Nat) (env : Env) (kind : IntKind) (v : JsVal),
      guardF (fuel + 1) env (.int kind) v =
        .ok (match v with
          | .num q => decide (q.den = 1 ∧
              (intBounds kind).1 ≤ q ∧ q < (intBounds kind).2)
          | _ => false)) := by
  refine ⟨rfl, rfl, rfl, rfl, rfl, rfl, ?_, ?_⟩
  · intro kind
    cases kind <;> simp [intBounds, intWidth, intSigned] <;> norm_num
  · intro fuel env kind v
    rw [show guardF (fuel + 1) env (.int kind) v =
        (pathErrorsF (fuel + 1) env (.int kind) v).map List.isEmpty from rfl]
    cases v with
    | num q =>
        simp only [pathErrorsF, pure, Except.pure, Except.map, Except.ok.injEq]
        split_ifs with h1 h2 h3
        · simp only [List.isEmpty_cons]
          symm
          rw [decide_eq_false_iff_not]
          rintro ⟨hd, -, -⟩
          exact h1 hd
        · simp only [List.isEmpty_cons]
          symm
          rw [decide_eq_false_iff_not]
          rintro ⟨-, hle, -⟩
          exact absurd h2 (not_lt.mpr hle)
        · simp only [List.isEmpty_cons]
          symm
          rw [decide_eq_false_iff_not]
          rintro ⟨-, -, hlt⟩
          exact absurd h3 (not_le.mpr hlt)
        · simp only [List.isEmpty_nil]
          symm
          rw [decide_eq_true_eq]
          exact ⟨of_not_not (fun hc => h1 hc), not_lt.mp h2, not_le.mp h3⟩
    | null => rfl
    | undefined => rfl
    | bool b => rfl
    | str t => rfl
    | arr xs => rfl
    | obj fields => rfl
    | protoFn name => rfl
    | hostObj => rfl

/-- C8 counterexample: a properties node whose required key is named
`"constructor"` (with the empty schema) accepts the record `{}` although
that required key is not a key of the record: `inp["constructor"]` finds
the inherited `Object.prototype.constructor`, which is defined and
satisfies the empty schema.  This refutes the claim's characterization
"every required key is present" read as presence among the record's
keys. -/
theorem c8_counterexample_proto_required_key :
    propertiesEntriesB (some [("constructor", .empty)]) none none =
      .ok (.props (some [("constructor", .empty)]) none false ["constructor"]) ∧
    guardF 3 []
        (.props (some [("constructor", .empty)]) none false ["constructor"])
        (.obj []) = .ok true ∧
    jsOwnKeys (.obj []) = [] :=
  ⟨rfl, rfl, rfl⟩

/-- C8 (amended): the concrete properties law — required `{a}`, optional
`{b}`, additionalProperties false, with int8 value schemas — holds exactly
as stated; and in general a properties node accepts exactly the plain
records where every required key looks up (through JavaScript property
lookup, which also reaches `Object.prototype` members such as
`"constructor"`) to a defined value satisfying its schema, every optional
key that looks up to a defined value satisfies its schema, and (when
additional properties are disallowed) every own key of the record is a
declared required or optional key. -/
theorem c8_properties_law :
    propertiesEntriesB (some [("a", .int .int8)]) (some [("b", .int .int8)])
        none =
      .ok (.props (some [("a", .int .int8)]) (some [("b", .int .int8)]) false
        ["a", "b"]) ∧
    guardF 2 []
        (.props (some [("a", .int .int8)]) (some [("b", .int .int8)]) false
          ["a", "b"])
        (.obj [("a", .num 1)]) = .ok true ∧
    guardF 2 []
        (.props (some [("a", .int .int8)]) (some [("b", .int .int8)]) false
          ["a", "b"])
        (.obj [("a", .num 1), ("b", .num 2)]) = .ok true ∧
    guardF 2 []
        (.props (some [("a", .int .int8)]) (some [("b", .int .int8)]) false
          ["a", "b"])
        (.obj [("a", .num 1), ("c", .num 3)]) = .ok false ∧
    pathErrorsF 2 []
        (.props (some [("a", .int .int8)]) (some [("b", .int .int8)]) false
          ["a", "b"])
        (.obj [("a", .num 1), ("c", .num 3)]) =
      .ok [([".c"],
        "'c' is not a valid property and additional properties are not allowed")] ∧
    guardF 2 []
        (.props (some [("a", .int .int8)]) (some [("b", .int .int8)]) false
          ["a", "b"])
        (.obj [("b", .num 2)]) = .ok false ∧
    pathErrorsF 2 []
        (.props (some [("a", .int .int8)]) (some [("b", .int .int8)]) false
          ["a", "b"])
        (.obj [("b", .num 2)]) = .ok [([], "required key 'a' is missing")] ∧
    (∀ (ps os : Option (List (String × CSchema))) (add : Option Bool)
       (node : CSchema), propertiesEntriesB ps os add = .ok node →
       ∀ (fuel : Nat) (env : Env) (v : JsVal),
         guardF (fuel + 1) env node v = .ok true ↔
           (isRecord v = true ∧
            (∀ kc ∈ ps.getD [], jsGet v kc.1 ≠ .undefined ∧
               guardF fuel env kc.2 (jsGet v kc.1) = .ok true) ∧
            (∀ kc ∈ os.getD [], jsGet v kc.1 ≠ .undefined →
               guardF fuel env kc.2 (jsGet v kc.1) = .ok true) ∧
            (add.getD false = true ∨
             ∀ k ∈ jsOwnKeys v,
               k ∈ (ps.getD [] ++ os.getD []).map (fun p => p.1)))) := by
  refine ⟨rfl, rfl, rfl, rfl, rfl, rfl, rfl, ?_⟩
  intro ps os add node h fuel env v
  unfold propertiesEntriesB at h
  split_ifs at h with h1 h2
  by_cases h3 : (uniqueKeys (List.map (fun p => p.1)
      (ps.getD [] ++ os.getD []))).length ≠
      (ps.getD []).length + (os.getD []).length
  · rw [if_pos h3] at h; cases h
  rw [if_neg h3] at h
  simp only [Except.ok.injEq] at h
  subst h
  rw [guard_ok_iff]
  by_cases hrec : isRecord v = true
  · rw [props_pathErrors_ok_nil_iff fuel env ps os (add.getD false) _ v hrec]
    constructor
    · rintro ⟨hr, ho, he⟩
      refine ⟨hrec, ?_, ?_, ?_⟩
      · intro kc hkc
        obtain ⟨hne, hchild⟩ := hr kc hkc
        exact ⟨hne, (guard_ok_iff _ _ _ _).mpr hchild⟩
      · intro kc hkc hne
        exact (guard_ok_iff _ _ _ _).mpr (ho kc hkc hne)
      · rcases he with hadd | hkeys
        · exact Or.inl hadd
        · refine Or.inr (fun k hk => ?_)
          have hmem : k ∈ uniqueKeys
              (((ps.getD []) ++ (os.getD [])).map (fun p => p.1)) := by
            simpa using hkeys k hk
          exact (mem_uniqueKeys _ _).mp hmem
    · rintro ⟨-, hr, ho, he⟩
      refine ⟨?_, ?_, ?_⟩
      · intro kc hkc
        obtain ⟨hne, hch⟩ := hr kc hkc
        exact ⟨hne, (guard_ok_iff _ _ _ _).mp hch⟩
      · intro kc hkc hne
        exact (guard_ok_iff _ _ _ _).mp (ho kc hkc hne)
      · rcases he with hadd | hkeys
        · exact Or.inl hadd
        · refine Or.inr (fun k hk => ?_)
          have hmem : k ∈ uniqueKeys
              (((ps.getD []) ++ (os.getD [])).map (fun p => p.1)) :=
            (mem_uniqueKeys _ _).mpr (hkeys k hk)
          simpa using hmem
  · have hf : isRecord v = false := by simpa using hrec
    constructor
    · intro hnil
      simp [pathErrorsF, hf, pure, Except.pure] at hnil
    · rintro ⟨hrec', -⟩
      rw [hf] at hrec'
      cases hrec'

/-- C9: constructing `elements`, `values`, `properties` or a
`discriminator` around any child node whose definitions flag is set raises
the compile-time error "definitions can only exist on a root schema";
wrapping such a node in `nullable` or `metadata` is permitted and
propagates the flag to the wrapper; and whenever one of the embedding
constructors does succeed, none of its children owns a definitions
table. -/
theorem c9_nested_definitions_rejected (c : CSchema)
    (hc : defsFlag c = true) :
    elementsB c = .error (.msg defsErrMsg) ∧
    valuesB c = .error (.msg defsErrMsg) ∧
    (∀ (pre post : List (String × CSchema)) (key : String)
       (os : Option (List (String × CSchema))) (add : Option Bool),
       propertiesEntriesB (some (pre ++ (key, c) :: post)) os add =
         .error (.msg defsErrMsg)) ∧
    (∀ (pre post : List (String × CSchema)) (key : String)
       (ps : Option (List (String × CSchema))) (add : Option Bool),
       (ps.getD []).any (fun p => defsFlag p.2) = false →
       propertiesEntriesB ps (some (pre ++ (key, c) :: post)) add =
         .error (.msg defsErrMsg)) ∧
    (∀ (pre post : List (String × CSchema)) (key tag : String),
       discriminatorEntriesB tag (pre ++ (key, c) :: post) =
         .error (.msg defsErrMsg)) ∧
    defsFlag (nullableB c) = true ∧
    (∀ m, defsFlag (metadataB c m) = true) ∧
    (∀ e r, elementsB e = .ok r → defsFlag e = false) ∧
    (∀ vl r, valuesB vl = .ok r → defsFlag vl = false) ∧
    (∀ ps os add r, propertiesEntriesB ps os add = .ok r →
       ∀ kc ∈ ps.getD [] ++ os.getD [], defsFlag kc.2 = false) ∧
    (∀ tag entries r, discriminatorEntriesB tag entries = .ok r →
       ∀ kc ∈ entries, defsFlag kc.2 = false) := by
  refine ⟨?_, ?_, ?_, ?_, ?_, ?_, ?_, ?_, ?_, ?_, ?_⟩
  · simp [elementsB, hc]
  · simp [valuesB, hc]
  · intro pre post key os add
    simp [propertiesEntriesB, hc, List.any_append, List.any_cons]
  · intro pre post key ps add hps
    simp [propertiesEntriesB, hps, hc, List.any_append, List.any_cons]
  · intro pre post key tag
    simp [discriminatorEntriesB, hc, List.any_append, List.any_cons]
  · exact hc
  · intro m; exact hc
  · intro e r h
    by_cases hd : defsFlag e
    · simp [elementsB, hd] at h
    · simpa using hd
  · intro vl r h
    by_cases hd : defsFlag vl
    · simp [valuesB, hd] at h
    · simpa using hd
  · intro ps os add r h kc hkc
    unfold propertiesEntriesB at h
    split_ifs at h with ha hb
    rcases List.mem_append.mp hkc with hp | ho
    · by_cases hd : defsFlag kc.2
      · exact absurd (List.any_eq_true.mpr ⟨kc, hp, hd⟩) ha
      · simpa using hd
    · by_cases hd : defsFlag kc.2
      · exact absurd (List.any_eq_true.mpr ⟨kc, ho, hd⟩) hb
      · simpa using hd
  · intro tag entries r h kc hkc
    unfold discriminatorEntriesB at h
    split_ifs at h with ha hb
    by_cases hd : defsFlag kc.2
    · exact absurd (List.any_eq_true.mpr ⟨kc, hkc, hd⟩) ha
    · simpa using hd

/-- C9 witness: the checks and the flag propagation at the concrete
defining root `definitions().build(() => boolean())`. -/
theorem c9_nested_definitions_rejected_witness :
    defsFlag (.defs [] .boolean) = true ∧
    (elementsB (.defs [] .boolean) = .error (.msg defsErrMsg) ∧
     valuesB (.defs [] .boolean) = .error (.msg defsErrMsg) ∧
     (∀ (pre post : List (String × CSchema)) (key : String)
        (os : Option (List (String × CSchema))) (add : Option Bool),
        propertiesEntriesB (some (pre ++ (key, .defs [] .boolean) :: post)) os
          add = .error (.msg defsErrMsg)) ∧
     (∀ (pre post : List (String × CSchema)) (key : String)
        (ps : Option (List (String × CSchema))) (add : Option Bool),
        (ps.getD []).any (fun p => defsFlag p.2) = false →
        propertiesEntriesB ps (some (pre ++ (key, .defs [] .boolean) :: post))
          add = .error (.msg defsErrMsg)) ∧
     (∀ (pre post : List (String × CSchema)) (key tag : String),
        discriminatorEntriesB tag (pre ++ (key, .defs [] .boolean) :: post) =
          .error (.msg defsErrMsg)) ∧
     defsFlag (nullableB (.defs [] .boolean)) = true ∧
     (∀ m, defsFlag (metadataB (.defs [] .boolean) m) = true) ∧
     (∀ e r, elementsB e = .ok r → defsFlag e = false) ∧
     (∀ vl r, valuesB vl = .ok r → defsFlag vl = false) ∧
     (∀ ps os add r, propertiesEntriesB ps os add = .ok r →
        ∀ kc ∈ ps.getD [] ++ os.getD [], defsFlag kc.2 = false) ∧
     (∀ tag entries r, discriminatorEntriesB tag entries = .ok r →
        ∀ kc ∈ entries, defsFlag kc.2 = false)) :=
  ⟨rfl, c9_nested_definitions_rejected (.defs [] .boolean) rfl⟩

/-- C10: a properties node treats a key whose value is the `undefined`
sentinel like an absent declared key: a required key whose own value is
`undefined` yields the missing-key error and its schema is never consulted
(the enumeration is invariant under replacing that schema), and an
optional key whose own value is `undefined` is skipped entirely (the
enumeration equals that of the node with the entry dropped, for the same
stored key set). -/
theorem c10_undefined_property_like_missing (n : Nat) (env : Env)
    (fields : List (String × JsVal)) (k : String)
    (hget : assocGet fields k = some .undefined) (s s' : CSchema)
    (ps1 ps2 os1 os2 : List (String × CSchema))
    (ps os : Option (List (String × CSchema)))
    (additional : Bool) (keys : List String) :
    (pathErrorsF (n + 1) env
        (.props (some (ps1 ++ (k, s) :: ps2)) os additional keys)
        (.obj fields) =
      pathErrorsF (n + 1) env
        (.props (some (ps1 ++ (k, s') :: ps2)) os additional keys)
        (.obj fields)) ∧
    (∀ l, pathErrorsF (n + 1) env
        (.props (some (ps1 ++ (k, s) :: ps2)) os additional keys)
        (.obj fields) = .ok l →
      ([], "required key '" ++ k ++ "' is missing") ∈ l) ∧
    (pathErrorsF (n + 1) env
        (.props ps (some (os1 ++ (k, s) :: os2)) additional keys)
        (.obj fields) =
      pathErrorsF (n + 1) env
        (.props ps (some (os1 ++ os2)) additional keys) (.obj fields)) := by
  have hj : jsGet (.obj fields) k = .undefined := jsGet_own fields k _ hget
  have hreq : reqCheck (fun c w => pathErrorsF n env c w) (.obj fields)
      (k, s) = .ok [([], "required key '" ++ k ++ "' is missing")] := by
    simp [reqCheck, hj, pure, Except.pure]
  have hreq' : reqCheck (fun c w => pathErrorsF n env c w) (.obj fields)
      (k, s') = .ok [([], "required key '" ++ k ++ "' is missing")] := by
    simp [reqCheck, hj, pure, Except.pure]
  have hopt : optCheck (fun c w => pathErrorsF n env c w) (.obj fields)
      (k, s) = .ok [] := by
    simp [optCheck, hj, pure, Except.pure]
  refine ⟨?_, ?_, ?_⟩
  · rw [pathErrorsF_props_record, pathErrorsF_props_record]
    simp only [Option.getD_some]
    rw [collectErrs_append_cons _ ps1 ps2 (k, s) (k, s')
      (by rw [hreq, hreq'])]
  · intro l hl
    rw [pathErrorsF_props_record] at hl
    simp only [Option.getD_some, bind, Except.bind] at hl
    cases hres : collectErrs (reqCheck (fun c w => pathErrorsF n env c w)
        (.obj fields)) (ps1 ++ (k, s) :: ps2) with
    | error e => rw [hres] at hl; cases hl
    | ok reqE =>
        rw [hres] at hl
        cases hopt2 : collectErrs (optCheck (fun c w => pathErrorsF n env c w)
            (.obj fields)) (os.getD []) with
        | error e => rw [hopt2] at hl; cases hl
        | ok optE =>
            rw [hopt2] at hl
            simp only [pure, Except.pure, Except.ok.injEq] at hl
            subst hl
            have hmem : ([], "required key '" ++ k ++ "' is missing") ∈ reqE :=
              collectErrs_mem _ ps1 ps2 (k, s) reqE hres _ _ hreq
                (List.mem_singleton.mpr rfl)
            exact List.mem_append.mpr (Or.inl (List.mem_append.mpr (Or.inl hmem)))
  · rw [pathErrorsF_props_record, pathErrorsF_props_record]
    simp only [Option.getD_some]
    rw [collectErrs_skip _ os1 os2 (k, s) hopt]

/-- C10 witness: the undefined-sentinel behaviour at the concrete record
`{a: undefined}` with required/optional key `"a"`. -/
theorem c10_undefined_property_like_missing_witness :
    assocGet [("a", JsVal.undefined)] "a" = some .undefined ∧
    ((pathErrorsF 1 []
        (.props (some ([] ++ ("a", .boolean) :: [])) (some []) false ["a"])
        (.obj [("a", JsVal.undefined)]) =
      pathErrorsF 1 []
        (.props (some ([] ++ ("a", .str) :: [])) (some []) false ["a"])
        (.obj [("a", JsVal.undefined)])) ∧
     (∀ l, pathErrorsF 1 []
        (.props (some ([] ++ ("a", .boolean) :: [])) (some []) false ["a"])
        (.obj [("a", JsVal.undefined)]) = .ok l →
      ([], "required key '" ++ "a" ++ "' is missing") ∈ l) ∧
     (pathErrorsF 1 []
        (.props (some []) (some ([] ++ ("a", .boolean) :: [])) false ["a"])
        (.obj [("a", JsVal.undefined)]) =
      pathErrorsF 1 []
        (.props (some []) (some ([] ++ [])) false ["a"])
        (.obj [("a", JsVal.undefined)]))) :=
  ⟨rfl, c10_undefined_property_like_missing 0 [] [("a", JsVal.undefined)] "a" rfl
    .boolean .str [] [] [] [] (some []) (some []) false ["a"]⟩

end JtdTs
